import Mathlib

/-! # AppSync API cache resource (`aws/resource_aws_appsync_api_cache.go`)

A shallow embedding of the resource definition: its schema with the two kinds
of validation predicate it attaches, and the four lifecycle procedures
(Create, Read, Update, Delete) as state-passing functions over the attribute
container and a client whose responses are arbitrary.

Conventions of the embedding

* A Go `interface{}` is a `GoValue`: the dynamic type is the constructor, so a
  type assertion `x.(T)` is a partial function (`none` is the run-time abort).
* A Go `(resp, err)` pair is a pair of `Option`s, `none` being `nil`.
* A Go pointer field of a request or response struct is an `Option`.
* A procedure returns a `Run`: the attribute container as it is left, the remote
  calls issued in order, and whether the procedure returned (with which error)
  or aborted.
-/

namespace AppsyncApiCache

/-! ## Go values and errors -/

/-- Values held in an `interface{}`. `int` and `int64` are distinct dynamic
types; `nil` is the nil interface (also what a nil pointer becomes inside
`ResourceData.Set`). -/
inductive GoValue
  | nil
  | str (s : String)
  | bool (b : Bool)
  | int (n : Int)
  | int64 (n : Int)
  deriving DecidableEq, Repr

/-- Go `error` values: an `awserr.Error` with its code and message; an error
built by `fmt.Errorf(format, args..., cause)`, kept as written (the format, the
arguments before the last, and the error given last), not rendered to text; or
any other error, identified by its text. -/
inductive GoError
  | aws (code message : String)
  | errorf (format : String) (args : List String) (cause : GoError)
  | other (text : String)
  deriving DecidableEq, Repr

/-- The assertion `v.(string)`. -/
def assertString : GoValue → Option String
  | .str s => some s
  | _ => none

/-- The assertion `v.(bool)`. -/
def assertBool : GoValue → Option Bool
  | .bool b => some b
  | _ => none

/-- The assertion `v.(int)`. -/
def assertInt : GoValue → Option Int
  | .int n => some n
  | _ => none

/-- The assertion `v.(int64)`. -/
def assertInt64 : GoValue → Option Int
  | .int64 n => some n
  | _ => none

/-! ## Constants of the client package -/

/-- Modelled from the spec: the caching-behaviour token
`appsync.ApiCachingBehaviorFullRequestCaching`, named by the source and defined
in the client package. -/
def ApiCachingBehaviorFullRequestCaching : String := "FULL_REQUEST_CACHING"

/-- Modelled from the spec: the caching-behaviour token
`appsync.ApiCachingBehaviorPerResolverCaching`. -/
def ApiCachingBehaviorPerResolverCaching : String := "PER_RESOLVER_CACHING"

/-- Modelled from the spec: the size-class token `appsync.ApiCacheTypeSmall`. -/
def ApiCacheTypeSmall : String := "SMALL"

/-- Modelled from the spec: the size-class token `appsync.ApiCacheTypeMedium`. -/
def ApiCacheTypeMedium : String := "MEDIUM"

/-- Modelled from the spec: the size-class token `appsync.ApiCacheTypeLarge`. -/
def ApiCacheTypeLarge : String := "LARGE"

/-- Modelled from the spec: the size-class token `appsync.ApiCacheTypeXlarge`. -/
def ApiCacheTypeXlarge : String := "XLARGE"

/-- Modelled from the spec: the size-class token `appsync.ApiCacheTypeLarge2x`. -/
def ApiCacheTypeLarge2x : String := "LARGE_2X"

/-- Modelled from the spec: the size-class token `appsync.ApiCacheTypeLarge4x`. -/
def ApiCacheTypeLarge4x : String := "LARGE_4X"

/-- Modelled from the spec: the size-class token `appsync.ApiCacheTypeLarge8x`. -/
def ApiCacheTypeLarge8x : String := "LARGE_8X"

/-- Modelled from the spec: the size-class token `appsync.ApiCacheTypeLarge12x`. -/
def ApiCacheTypeLarge12x : String := "LARGE_12X"

/-- Modelled from the spec: the provider-specific "not found" error code
`appsync.ErrCodeNotFoundException`. -/
def ErrCodeNotFoundException : String := "NotFoundException"

/-! ## Schema and validation predicates -/

/-- The value types the schema uses (`schema.TypeBool`, `schema.TypeInt`,
`schema.TypeString`). -/
inductive ValueType
  | TypeBool
  | TypeInt
  | TypeString
  deriving DecidableEq, Repr

/-- The closures the schema attaches as `ValidateFunc`, each represented by the
arguments it captures: `validation.StringInSlice(valid, ignoreCase)` and
`validation.IntBetween(min, max)`. -/
inductive SchemaValidateFunc
  | stringInSlice (valid : List String) (ignoreCase : Bool)
  | intBetween (min max : Int)
  deriving DecidableEq, Repr

/-- One attribute definition of the schema map (`schema.Schema`; the field
`Type` is written `Typ`). -/
structure Schema where
  Typ : ValueType
  Required : Bool
  Optional : Bool
  ValidateFunc : Option SchemaValidateFunc
  deriving DecidableEq, Repr

/-- Go's `strings.ToLower`, over the rune-lowering table `lower`
(`unicode.ToLower`), which is a parameter of the development. -/
def ToLower (lower : Char → Char) (s : String) : String :=
  ⟨s.data.map lower⟩

/-- The body of the closure returned by `validation.StringInSlice(valid,
ignoreCase)`, the helper of the plugin SDK's validation package that the schema
calls: the list of errors it reports for the value `i` of attribute `k`. It
asserts a string, then looks for an entry of `valid` equal to it, or equal to
it once both are lowered when `ignoreCase` is set. -/
def StringInSlice (lower : Char → Char) (valid : List String) (ignoreCase : Bool)
    (i : GoValue) (k : String) : List GoError :=
  match assertString i with
  | none => [.other ("expected type of " ++ k ++ " to be string")]
  | some v =>
    if valid.any
        (fun str => v == str || (ignoreCase && ToLower lower v == ToLower lower str)) then
      []
    else
      [.other ("expected " ++ k ++ " to be one of [" ++ " ".intercalate valid ++ "], got " ++ v)]

/-- The body of the closure returned by `validation.IntBetween(min, max)`, the
helper of the plugin SDK's validation package that the schema calls. It asserts
an `int`, the dynamic type in which the SDK holds a `TypeInt` attribute, then
checks the two bounds. -/
def IntBetween (min max : Int) (i : GoValue) (k : String) : List GoError :=
  match assertInt i with
  | none => [.other ("expected type of " ++ k ++ " to be integer")]
  | some v =>
    if v < min || v > max then
      [.other ("expected " ++ k ++ " to be in the range (" ++ toString min ++ " - " ++
        toString max ++ "), got " ++ toString v)]
    else
      []

/-- Running a validation closure. -/
def SchemaValidateFunc.run (lower : Char → Char) :
    SchemaValidateFunc → GoValue → String → List GoError
  | .stringInSlice valid ignoreCase, i, k => StringInSlice lower valid ignoreCase i k
  | .intBetween min max, i, k => IntBetween min max i k

/-- The schema map of `resourceAwsAppsyncApiCache()` (lines 24-64), in source
order. -/
def resourceAwsAppsyncApiCache : List (String × Schema) :=
  [ ("api_id",
      { Typ := .TypeString, Required := true, Optional := false, ValidateFunc := none }),
    ("api_caching_behavior",
      { Typ := .TypeString, Required := true, Optional := false,
        ValidateFunc := some (.stringInSlice
          [ApiCachingBehaviorFullRequestCaching, ApiCachingBehaviorPerResolverCaching] true) }),
    ("at_rest_encryption_enabled",
      { Typ := .TypeBool, Required := false, Optional := true, ValidateFunc := none }),
    ("transit_encryption_enabled",
      { Typ := .TypeBool, Required := false, Optional := true, ValidateFunc := none }),
    ("ttl",
      { Typ := .TypeInt, Required := true, Optional := false,
        ValidateFunc := some (.intBetween 1 3600) }),
    ("type",
      { Typ := .TypeString, Required := true, Optional := false,
        ValidateFunc := some (.stringInSlice
          [ApiCacheTypeSmall, ApiCacheTypeMedium, ApiCacheTypeLarge, ApiCacheTypeXlarge,
           ApiCacheTypeLarge2x, ApiCacheTypeLarge4x, ApiCacheTypeLarge8x,
           ApiCacheTypeLarge12x] true) }) ]

/-- The validation predicate attached to attribute `key`: true when the
attribute's `ValidateFunc` reports no error for `v` (an attribute without one
accepts every value, an unknown key none). -/
def validates (lower : Char → Char) (key : String) (v : GoValue) : Bool :=
  match resourceAwsAppsyncApiCache.lookup key with
  | none => false
  | some s =>
    match s.ValidateFunc with
    | none => true
    | some f => (f.run lower v key).isEmpty

/-- The specification's words for the string predicates: `s` equals `t`,
ignoring letter case. The two have the same length and, position by position,
letters that differ at most in case (they have the same lowering). -/
def equalsIgnoringCase (lower : Char → Char) (s t : String) : Prop :=
  List.Forall₂ (fun a b => lower a = lower b) s.data t.data

/-- The two caching-behaviour tokens, spelled out. -/
def cachingBehaviorTokens : List String :=
  ["FULL_REQUEST_CACHING", "PER_RESOLVER_CACHING"]

/-- The eight cache-size tokens, spelled out. -/
def cacheSizeTokens : List String :=
  ["SMALL", "MEDIUM", "LARGE", "XLARGE", "LARGE_2X", "LARGE_4X", "LARGE_8X", "LARGE_12X"]

/-! ## The attribute container (`schema.ResourceData`)

The container is the plugin SDK's; the source only calls it. Its operations are
embedded after the SDK's behaviour: `Get` hands out the zero value of the
attribute's schema type when nothing is set, `GetOk` reports an attribute as
set only when it differs from that zero value, `HasChange` compares the stored
and the desired value, and `Set` refuses a value of the wrong kind. The SDK
holds a `TypeInt` attribute as a Go `int`, which is also the only dynamic type
the schema's `IntBetween` accepts; the sample inputs below hold `ttl` so. -/

/-- An attribute set: attribute name to dynamic value, first entry wins. -/
abbrev Attrs := List (String × GoValue)

/-- The attribute container handed to the lifecycle procedures. `id` is the
instance identifier (empty: the instance is Absent); `state` is the attribute
set last stored; `planned` is the desired attribute set (the diff merged over
the state); `written` holds what `Set` wrote during the procedure. The
container is loosely typed: each level holds whatever dynamic value it was
given, and the procedures assert the types they expect. -/
structure ResourceData where
  id : String
  state : Attrs
  planned : Attrs
  written : Attrs
  deriving DecidableEq, Repr

/-- The zero value of a schema type, as the container hands it out. -/
def zeroValue : ValueType → GoValue
  | .TypeBool => .bool false
  | .TypeInt => .int 0
  | .TypeString => .str ""

/-- The zero value of attribute `key` (the nil interface for a key the schema
does not have). -/
def schemaZero (key : String) : GoValue :=
  match resourceAwsAppsyncApiCache.lookup key with
  | some s => zeroValue s.Typ
  | none => .nil

/-- The topmost value of `key`: written values shadow planned ones. -/
def ResourceData.getRaw (d : ResourceData) (key : String) : Option GoValue :=
  match d.written.lookup key with
  | some v => some v
  | none => d.planned.lookup key

/-- The identifier, `d.Id()`. -/
def ResourceData.Id (d : ResourceData) : String :=
  d.id

/-- Setting the identifier, `d.SetId(v)`. -/
def ResourceData.SetId (d : ResourceData) (v : String) : ResourceData :=
  { d with id := v }

/-- Reading an attribute, `d.Get(key)`: the zero value when it is not set. -/
def ResourceData.Get (d : ResourceData) (key : String) : GoValue :=
  (d.getRaw key).getD (schemaZero key)

/-- Reading with a set-ness flag, `d.GetOk(key)`: the flag is true when the
attribute is set to something other than its zero value. -/
def ResourceData.GetOk (d : ResourceData) (key : String) : GoValue × Bool :=
  match d.getRaw key with
  | some v => (v, v != schemaZero key)
  | none => (schemaZero key, false)

/-- The stored and the desired value of an attribute, `d.GetChange(key)`. -/
def ResourceData.GetChange (d : ResourceData) (key : String) : GoValue × GoValue :=
  ((d.state.lookup key).getD (schemaZero key), (d.planned.lookup key).getD (schemaZero key))

/-- Whether the desired value differs from the stored one, `d.HasChange(key)`. -/
def ResourceData.HasChange (d : ResourceData) (key : String) : Bool :=
  (d.GetChange key).1 != (d.GetChange key).2

/-- What the field writer stores for a value given to `Set` on an attribute of
type `t`: a nil value clears to the zero value, a value of the attribute's kind
is kept (an `int64` is narrowed to `int`), anything else is refused. -/
def decodePrimitive : ValueType → GoValue → Option GoValue
  | t, .nil => some (zeroValue t)
  | .TypeBool, .bool b => some (.bool b)
  | .TypeString, .str s => some (.str s)
  | .TypeInt, .int n => some (.int n)
  | .TypeInt, .int64 n => some (.int n)
  | _, _ => none

/-- Writing an attribute, `d.Set(key, value)`: the container after the write
and the error, if the write was refused (the error texts are abridged). -/
def ResourceData.Set (d : ResourceData) (key : String) (value : GoValue) :
    ResourceData × Option GoError :=
  match resourceAwsAppsyncApiCache.lookup key with
  | none => (d, some (.other ("Invalid address to set: " ++ key)))
  | some s =>
    match decodePrimitive s.Typ value with
    | none => (d, some (.other (key ++ ": value of the wrong kind")))
    | some v => ({ d with written := (key, v) :: d.written }, none)

/-! ## The client (`appsync` requests, responses and calls) -/

/-- The request of `CreateApiCache` (the field `Type` is written `Typ`). -/
structure CreateApiCacheInput where
  ApiCachingBehavior : Option String
  ApiId : Option String
  AtRestEncryptionEnabled : Option Bool
  TransitEncryptionEnabled : Option Bool
  Ttl : Option Int
  Typ : Option String
  deriving DecidableEq, Repr

/-- The request of `GetApiCache`. -/
structure GetApiCacheInput where
  ApiId : Option String
  deriving DecidableEq, Repr

/-- The request of `UpdateApiCache` (the field `Type` is written `Typ`). -/
structure UpdateApiCacheInput where
  ApiCachingBehavior : Option String
  ApiId : Option String
  Ttl : Option Int
  Typ : Option String
  deriving DecidableEq, Repr

/-- The request of `DeleteApiCache`. -/
structure DeleteApiCacheInput where
  ApiId : Option String
  deriving DecidableEq, Repr

/-- The cache description inside a `GetApiCache` response (the fields the
procedures read). -/
structure ApiCache where
  ApiCachingBehavior : Option String
  AtRestEncryptionEnabled : Option Bool
  TransitEncryptionEnabled : Option Bool
  Ttl : Option Int
  Typ : Option String
  deriving DecidableEq, Repr

/-- The response of `GetApiCache`. -/
structure GetApiCacheOutput where
  ApiCache : Option ApiCache
  deriving DecidableEq, Repr

/-- The client: what each call answers to each request. `GetApiCache` answers
with a `(resp, err)` pair; for the other three the procedures discard the
response, so only the error is kept. -/
structure AppSync where
  CreateApiCache : CreateApiCacheInput → Option GoError
  GetApiCache : GetApiCacheInput → Option GetApiCacheOutput × Option GoError
  UpdateApiCache : UpdateApiCacheInput → Option GoError
  DeleteApiCache : DeleteApiCacheInput → Option GoError

/-- A remote call with the request it carried. -/
inductive RemoteCall
  | CreateApiCache (params : CreateApiCacheInput)
  | GetApiCache (params : GetApiCacheInput)
  | UpdateApiCache (params : UpdateApiCacheInput)
  | DeleteApiCache (params : DeleteApiCacheInput)
  deriving DecidableEq, Repr

/-- How a procedure ends: it returns its `error` result (`none` is `nil`), or it
aborts at a failed type assertion or a nil dereference. -/
inductive Outcome
  | returned (err : Option GoError)
  | aborted
  deriving DecidableEq, Repr

/-- One execution of a lifecycle procedure. -/
structure Run where
  d : ResourceData
  calls : List RemoteCall
  outcome : Outcome
  deriving DecidableEq, Repr

/-- The helper `aws.BoolValue`: false for a nil pointer. -/
def BoolValue (v : Option Bool) : Bool :=
  v.getD false

/-- A `*string` passed as an `interface{}`. -/
def ofStringPtr : Option String → GoValue
  | some s => .str s
  | none => .nil

/-- An `*int64` passed as an `interface{}`. -/
def ofInt64Ptr : Option Int → GoValue
  | some n => .int64 n
  | none => .nil

/-- Go's `strings.Contains`. -/
def Contains (s substr : String) : Bool :=
  decide (substr.data <:+: s.data)

/-- Modelled from the spec: the error classifier `isAWSErr`, which the source
calls and the provider package defines elsewhere; it recognises an error of the
client with the given code whose message contains the given text. -/
def isAWSErr (err : GoError) (code message : String) : Bool :=
  match err with
  | .aws c m => c == code && Contains m message
  | .errorf _ _ _ => false
  | .other _ => false

/-! ## The lifecycle procedures -/

/-- Lines 93-125 of the source. -/
def resourceAwsAppsyncApiCacheRead (d : ResourceData) (conn : AppSync) : Run :=
  let apiID := d.Id
  let params : GetApiCacheInput := { ApiId := some apiID }
  let calls := [RemoteCall.GetApiCache params]
  match conn.GetApiCache params with
  | (_, some err) =>
    ⟨d, calls, .returned (some
      (.errorf "error getting Appsync API Cache for API ID %q: %s" [d.Id] err))⟩
  | (none, none) =>
    ⟨d.SetId "", calls, .returned none⟩
  | (some resp, none) =>
    let d := (d.Set "api_id" (.str apiID)).1
    match resp.ApiCache with
    | none => ⟨d, calls, .aborted⟩
    | some cache =>
      let d := (d.Set "api_caching_behavior" (ofStringPtr cache.ApiCachingBehavior)).1
      let d := (d.Set "ttl" (ofInt64Ptr cache.Ttl)).1
      let d := (d.Set "type" (ofStringPtr cache.Typ)).1
      match d.Set "at_rest_encryption_enabled" (.bool (BoolValue cache.AtRestEncryptionEnabled)) with
      | (d, some err) =>
        ⟨d, calls, .returned (some
          (.errorf "error setting at_rest_encryption_enabled: %s" [] err))⟩
      | (d, none) =>
        match d.Set "transit_encryption_enabled"
            (.bool (BoolValue cache.TransitEncryptionEnabled)) with
        | (d, some err) =>
          ⟨d, calls, .returned (some
            (.errorf "error setting transit_encryption_enabled: %s" [] err))⟩
        | (d, none) => ⟨d, calls, .returned none⟩

/-- Lines 71-83 of the source: the identifier and the request `Create` builds
before it calls the client, or `none` when a type assertion aborts. -/
def createParams (d : ResourceData) : Option (String × CreateApiCacheInput) :=
  match assertString (d.Get "api_id") with
  | none => none
  | some apiID =>
    match assertString (d.Get "api_caching_behavior") with
    | none => none
    | some behavior =>
      match assertInt64 (d.Get "ttl") with
      | none => none
      | some ttl =>
        let params : CreateApiCacheInput :=
          { ApiCachingBehavior := some behavior, ApiId := some apiID, Ttl := some ttl,
            AtRestEncryptionEnabled := none, TransitEncryptionEnabled := none, Typ := none }
        match (if (d.GetOk "at_rest_encryption_enabled").2 then
            (assertBool (d.GetOk "at_rest_encryption_enabled").1).map
              (fun b => { params with AtRestEncryptionEnabled := some b })
          else some params) with
        | none => none
        | some params =>
          match (if (d.GetOk "transit_encryption_enabled").2 then
              (assertBool (d.GetOk "transit_encryption_enabled").1).map
                (fun b => { params with TransitEncryptionEnabled := some b })
            else some params) with
          | none => none
          | some params => some (apiID, params)

/-- Lines 68-91 of the source. -/
def resourceAwsAppsyncApiCacheCreate (d : ResourceData) (conn : AppSync) : Run :=
  match createParams d with
  | none => ⟨d, [], .aborted⟩
  | some (apiID, params) =>
    match conn.CreateApiCache params with
    | some err =>
      ⟨d, [.CreateApiCache params], .returned (some
        (.errorf "error creating Appsync API Cache: %s" [] err))⟩
    | none =>
      let d := d.SetId apiID
      let r := resourceAwsAppsyncApiCacheRead d conn
      ⟨r.d, .CreateApiCache params :: r.calls, r.outcome⟩

/-- Lines 130-143 of the source: the request `Update` builds before it calls the
client, or `none` when a type assertion aborts. -/
def updateParams (d : ResourceData) : Option UpdateApiCacheInput :=
  let apiID := d.Id
  let params : UpdateApiCacheInput :=
    { ApiId := some apiID, ApiCachingBehavior := none, Ttl := none, Typ := none }
  match (if d.HasChange "api_caching_behavior" then
      (assertString (d.Get "api_caching_behavior")).map
        (fun s => { params with ApiCachingBehavior := some s })
    else some params) with
  | none => none
  | some params =>
    match (if d.HasChange "ttl" then
        (assertInt64 (d.Get "ttl")).map (fun n => { params with Ttl := some n })
      else some params) with
    | none => none
    | some params =>
      if d.HasChange "type" then
        (assertString (d.Get "type")).map (fun s => { params with Typ := some s })
      else some params

/-- Lines 127-151 of the source. -/
def resourceAwsAppsyncApiCacheUpdate (d : ResourceData) (conn : AppSync) : Run :=
  match updateParams d with
  | none => ⟨d, [], .aborted⟩
  | some params =>
    match conn.UpdateApiCache params with
    | some err => ⟨d, [.UpdateApiCache params], .returned (some err)⟩
    | none =>
      let r := resourceAwsAppsyncApiCacheRead d conn
      ⟨r.d, .UpdateApiCache params :: r.calls, r.outcome⟩

/-- Lines 153-170 of the source. -/
def resourceAwsAppsyncApiCacheDelete (d : ResourceData) (conn : AppSync) : Run :=
  let apiID := d.Id
  let input : DeleteApiCacheInput := { ApiId := some apiID }
  match conn.DeleteApiCache input with
  | some err =>
    if isAWSErr err ErrCodeNotFoundException "" then
      ⟨d, [.DeleteApiCache input], .returned none⟩
    else
      ⟨d, [.DeleteApiCache input], .returned (some err)⟩
  | none => ⟨d, [.DeleteApiCache input], .returned none⟩

/-! ## Sample inputs -/

/-- A client that answers every call with success; `GetApiCache` describes a
cache with the given attributes. -/
def okClient (cache : ApiCache) : AppSync :=
  { CreateApiCache := fun _ => none
    GetApiCache := fun _ => (some { ApiCache := some cache }, none)
    UpdateApiCache := fun _ => none
    DeleteApiCache := fun _ => none }

/-- The cache description matching the scenario of the spec. -/
def largeCache : ApiCache :=
  { ApiCachingBehavior := some "FULL_REQUEST_CACHING", AtRestEncryptionEnabled := some false,
    TransitEncryptionEnabled := some false, Ttl := some 3600, Typ := some "LARGE" }

/-- The desired attribute set of the scenario of the spec (ttl=3600,
api_caching_behavior="FULL_REQUEST_CACHING", type="LARGE") for the parent API
"abc", each value held as its schema type hands it out, on an Absent
instance. -/
def scenarioData : ResourceData :=
  { id := "", state := [], written := [],
    planned := [("api_id", .str "abc"), ("api_caching_behavior", .str "FULL_REQUEST_CACHING"),
      ("ttl", .int 3600), ("type", .str "LARGE")] }


/-- The client `okClient largeCache` with the answer of `GetApiCache` replaced. -/
def getAnswers (answer : Option GetApiCacheOutput × Option GoError) : AppSync :=
  { okClient largeCache with GetApiCache := fun _ => answer }

/-- A Present instance "abc" whose stored `ttl` is 60 and whose desired `ttl` is
120, the other attributes unchanged, each value held as its schema type hands
it out. -/
def ttlChangeData : ResourceData :=
  { id := "abc", written := [],
    state := [("api_id", .str "abc"), ("api_caching_behavior", .str "FULL_REQUEST_CACHING"),
      ("ttl", .int 60), ("type", .str "LARGE")],
    planned := [("api_id", .str "abc"), ("api_caching_behavior", .str "FULL_REQUEST_CACHING"),
      ("ttl", .int 120), ("type", .str "LARGE")] }

/-- A Present instance "abc" whose desired `type` differs from the stored one
and whose `ttl` is unchanged. -/
def typeChangeData : ResourceData :=
  { id := "abc", written := [],
    state := [("api_id", .str "abc"), ("api_caching_behavior", .str "FULL_REQUEST_CACHING"),
      ("ttl", .int 60), ("type", .str "LARGE")],
    planned := [("api_id", .str "abc"), ("api_caching_behavior", .str "FULL_REQUEST_CACHING"),
      ("ttl", .int 60), ("type", .str "XLARGE")] }

/-- The scenario of the spec with the first encryption flag explicitly set to
true and the second explicitly set to false, each value held as its schema type
hands it out, on an Absent instance. -/
def flagsData : ResourceData :=
  { id := "", state := [], written := [],
    planned := [("api_id", .str "abc"), ("api_caching_behavior", .str "FULL_REQUEST_CACHING"),
      ("ttl", .int 3600), ("type", .str "LARGE"),
      ("at_rest_encryption_enabled", .bool true),
      ("transit_encryption_enabled", .bool false)] }

/-! ## Facts about the container and the read -/

theorem schemaZero_at_rest : schemaZero "at_rest_encryption_enabled" = .bool false := by
  decide

theorem schemaZero_transit : schemaZero "transit_encryption_enabled" = .bool false := by
  decide

theorem Set_id (d : ResourceData) (key : String) (value : GoValue) :
    (d.Set key value).1.id = d.id := by
  unfold ResourceData.Set
  split
  · rfl
  · split <;> rfl

theorem Set_at_rest (d : ResourceData) (b : Bool) :
    d.Set "at_rest_encryption_enabled" (.bool b) =
      ({ d with written := ("at_rest_encryption_enabled", .bool b) :: d.written }, none) := by
  rfl

theorem Set_transit (d : ResourceData) (b : Bool) :
    d.Set "transit_encryption_enabled" (.bool b) =
      ({ d with written := ("transit_encryption_enabled", .bool b) :: d.written }, none) := by
  rfl

theorem Contains_empty (s : String) : Contains s "" = true := by
  simp [Contains]

theorem read_calls (d : ResourceData) (conn : AppSync) :
    (resourceAwsAppsyncApiCacheRead d conn).calls = [.GetApiCache { ApiId := some d.id }] := by
  unfold resourceAwsAppsyncApiCacheRead
  simp only [ResourceData.Id, Set_at_rest, Set_transit]
  split
  · rfl
  · rfl
  · split <;> rfl

theorem read_on_error (d : ResourceData) (conn : AppSync) (resp : Option GetApiCacheOutput)
    (err : GoError) (h : conn.GetApiCache { ApiId := some d.id } = (resp, some err)) :
    resourceAwsAppsyncApiCacheRead d conn =
      ⟨d, [.GetApiCache { ApiId := some d.id }], .returned (some
        (.errorf "error getting Appsync API Cache for API ID %q: %s" [d.id] err))⟩ := by
  unfold resourceAwsAppsyncApiCacheRead
  simp only [ResourceData.Id, h]

theorem read_on_nil (d : ResourceData) (conn : AppSync)
    (h : conn.GetApiCache { ApiId := some d.id } = (none, none)) :
    resourceAwsAppsyncApiCacheRead d conn =
      ⟨d.SetId "", [.GetApiCache { ApiId := some d.id }], .returned none⟩ := by
  unfold resourceAwsAppsyncApiCacheRead
  simp only [ResourceData.Id, h]

theorem read_on_response (d : ResourceData) (conn : AppSync) (resp : GetApiCacheOutput)
    (h : conn.GetApiCache { ApiId := some d.id } = (some resp, none)) :
    (resourceAwsAppsyncApiCacheRead d conn).d.id = d.id ∧
      ((resourceAwsAppsyncApiCacheRead d conn).outcome = .aborted ∨
        (resourceAwsAppsyncApiCacheRead d conn).outcome = .returned none) := by
  unfold resourceAwsAppsyncApiCacheRead
  simp only [ResourceData.Id, h, Set_at_rest, Set_transit]
  split
  · exact ⟨Set_id _ _ _, Or.inl rfl⟩
  · refine ⟨?_, Or.inr rfl⟩
    simp only [Set_id]

theorem ToLower_eq_iff (lower : Char → Char) (s t : String) :
    ToLower lower s = ToLower lower t ↔ equalsIgnoringCase lower s t := by
  unfold ToLower equalsIgnoringCase
  have hinj : (⟨s.data.map lower⟩ : String) = ⟨t.data.map lower⟩ ↔
      s.data.map lower = t.data.map lower := by
    constructor
    · intro h
      exact congrArg String.data h
    · intro h
      rw [h]
  rw [hinj, ← List.forall₂_eq_eq_eq, List.forall₂_map_left_iff, List.forall₂_map_right_iff]

theorem StringInSlice_accepts_iff (lower : Char → Char) (valid : List String) (s k : String) :
    (StringInSlice lower valid true (.str s) k).isEmpty = true ↔
      ∃ t ∈ valid, equalsIgnoringCase lower s t := by
  have hany : valid.any (fun str => s == str || (true && ToLower lower s == ToLower lower str))
      = true ↔ ∃ t ∈ valid, equalsIgnoringCase lower s t := by
    rw [List.any_eq_true]
    constructor
    · rintro ⟨t, ht, hp⟩
      refine ⟨t, ht, ?_⟩
      simp only [Bool.true_and, Bool.or_eq_true, beq_iff_eq] at hp
      rcases hp with hp | hp
      · rw [hp]
        exact (ToLower_eq_iff lower t t).1 rfl
      · exact (ToLower_eq_iff lower s t).1 hp
    · rintro ⟨t, ht, hp⟩
      refine ⟨t, ht, ?_⟩
      simp only [Bool.true_and, Bool.or_eq_true, beq_iff_eq]
      exact Or.inr ((ToLower_eq_iff lower s t).2 hp)
  simp only [StringInSlice, assertString]
  by_cases h : valid.any (fun str => s == str || (true && ToLower lower s == ToLower lower str))
      = true
  · simp only [h, if_true, List.isEmpty_nil, true_iff]
    exact hany.1 h
  · simp only [h, if_false, List.isEmpty_cons]
    constructor
    · intro hf
      cases hf
    · intro hx
      exact absurd (hany.2 hx) h

theorem flag_step {α : Type} (d : ResourceData) (key : String)
    (hz : schemaZero key = .bool false) (params q : α) (f : Bool → α)
    (h : (if (d.GetOk key).2 = true then (assertBool (d.GetOk key).1).map f else some params)
      = some q) :
    q = if d.Get key = .bool true then f true else params := by
  unfold ResourceData.GetOk ResourceData.Get at *
  rw [hz] at h
  cases hr : d.getRaw key with
  | none =>
    simp only [hr, Bool.false_eq_true, if_false, Option.some.injEq] at h
    simp [hz, h]
  | some v =>
    cases v with
    | bool b =>
      cases b
      · simp only [hr, bne_self_eq_false, Bool.false_eq_true, if_false, Option.some.injEq] at h
        simp [h]
      · have hne : (GoValue.bool true != GoValue.bool false) = true := by decide
        simp only [hr, hne, if_true, assertBool, Option.map, Option.some.injEq] at h
        simp [h]
    | nil =>
      have hne : (GoValue.nil != GoValue.bool false) = true := by decide
      simp [hr, hne, assertBool] at h
    | str s =>
      have hne : (GoValue.str s != GoValue.bool false) = true := by simp
      simp [hr, hne, assertBool] at h
    | int n =>
      have hne : (GoValue.int n != GoValue.bool false) = true := by simp
      simp [hr, hne, assertBool] at h
    | int64 n =>
      have hne : (GoValue.int64 n != GoValue.bool false) = true := by simp
      simp [hr, hne, assertBool] at h

/-- Lines 71-83 read on their own, whatever the container holds: a request that
gets built has `api_id`, `api_caching_behavior` and `ttl` as configured, `Type`
unset, and each encryption flag present exactly when its value is true. -/
theorem createParams_fields (d : ResourceData) (apiID : String) (p : CreateApiCacheInput)
    (h : createParams d = some (apiID, p)) :
    d.Get "api_id" = .str apiID ∧ p.ApiId = some apiID ∧
    (∃ b, d.Get "api_caching_behavior" = .str b ∧ p.ApiCachingBehavior = some b) ∧
    (∃ n, d.Get "ttl" = .int64 n ∧ p.Ttl = some n) ∧
    p.Typ = none ∧
    p.AtRestEncryptionEnabled =
      (if d.Get "at_rest_encryption_enabled" = .bool true then some true else none) ∧
    p.TransitEncryptionEnabled =
      (if d.Get "transit_encryption_enabled" = .bool true then some true else none) := by
  unfold createParams at h
  cases h1 : d.Get "api_id" with
  | str a =>
    cases h2 : d.Get "api_caching_behavior" with
    | str b =>
      cases h3 : d.Get "ttl" with
      | int64 n =>
        simp only [h1, h2, h3, assertString, assertInt64] at h
        split at h
        · cases h
        · rename_i q1 hq1
          split at h
          · cases h
          · rename_i q2 hq2
            have e1 := flag_step d "at_rest_encryption_enabled" schemaZero_at_rest _ _ _ hq1
            have e2 := flag_step d "transit_encryption_enabled" schemaZero_transit _ _ _ hq2
            simp only [Option.some.injEq, Prod.mk.injEq] at h
            obtain ⟨ha, hp⟩ := h
            subst ha
            subst hp
            rw [e2, e1]
            by_cases c1 : d.Get "at_rest_encryption_enabled" = .bool true <;>
            by_cases c2 : d.Get "transit_encryption_enabled" = .bool true <;>
            simp [c1, c2]
      | nil => simp [h1, h2, h3, assertString, assertInt64] at h
      | str _ => simp [h1, h2, h3, assertString, assertInt64] at h
      | bool _ => simp [h1, h2, h3, assertString, assertInt64] at h
      | int _ => simp [h1, h2, h3, assertString, assertInt64] at h
    | nil => simp [h1, h2, assertString] at h
    | bool _ => simp [h1, h2, assertString] at h
    | int _ => simp [h1, h2, assertString] at h
    | int64 _ => simp [h1, h2, assertString] at h
  | nil => simp [h1, assertString] at h
  | bool _ => simp [h1, assertString] at h
  | int _ => simp [h1, assertString] at h
  | int64 _ => simp [h1, assertString] at h

theorem ttl_valid_is_int (lower : Char → Char) (v : GoValue)
    (h : validates lower "ttl" v = true) : ∃ n, v = .int n := by
  have hl : resourceAwsAppsyncApiCache.lookup "ttl" =
      some { Typ := .TypeInt, Required := true, Optional := false,
             ValidateFunc := some (.intBetween 1 3600) } := by decide
  simp only [validates, hl, SchemaValidateFunc.run, IntBetween] at h
  cases v with
  | int n => exact ⟨n, rfl⟩
  | nil => simp [assertInt] at h
  | str _ => simp [assertInt] at h
  | bool _ => simp [assertInt] at h
  | int64 _ => simp [assertInt] at h

theorem createParams_none_of_int (d : ResourceData) (n : Int) (h : d.Get "ttl" = .int n) :
    createParams d = none := by
  unfold createParams
  cases assertString (d.Get "api_id") with
  | none => rfl
  | some a =>
    cases assertString (d.Get "api_caching_behavior") with
    | none => rfl
    | some b => simp only [h, assertInt64]

theorem create_run_of_valid_ttl (lower : Char → Char) (d : ResourceData) (conn : AppSync)
    (h : validates lower "ttl" (d.Get "ttl") = true) :
    resourceAwsAppsyncApiCacheCreate d conn = ⟨d, [], .aborted⟩ := by
  obtain ⟨n, hn⟩ := ttl_valid_is_int lower _ h
  unfold resourceAwsAppsyncApiCacheCreate
  rw [createParams_none_of_int d n hn]

theorem updateParams_none_of_int (d : ResourceData) (n : Int) (hc : d.HasChange "ttl" = true)
    (h : d.Get "ttl" = .int n) : updateParams d = none := by
  unfold updateParams
  simp only [hc, h, assertInt64, if_true, Option.map]
  split <;> rfl

theorem string_step {α : Type} (c : Bool) (v : GoValue) (params q : α) (f : String → α)
    (h : (if c = true then (assertString v).map f else some params) = some q) :
    (c = true ∧ ∃ x, v = .str x ∧ q = f x) ∨ (c = false ∧ q = params) := by
  cases c with
  | false =>
    simp only [Bool.false_eq_true, if_false, Option.some.injEq] at h
    exact Or.inr ⟨rfl, h.symm⟩
  | true =>
    cases v with
    | str x =>
      simp only [if_true, assertString, Option.map, Option.some.injEq] at h
      exact Or.inl ⟨rfl, x, rfl, h.symm⟩
    | nil => simp [assertString] at h
    | bool _ => simp [assertString] at h
    | int _ => simp [assertString] at h
    | int64 _ => simp [assertString] at h

theorem int64_step {α : Type} (c : Bool) (v : GoValue) (params q : α) (f : Int → α)
    (h : (if c = true then (assertInt64 v).map f else some params) = some q) :
    (c = true ∧ ∃ x, v = .int64 x ∧ q = f x) ∨ (c = false ∧ q = params) := by
  cases c with
  | false =>
    simp only [Bool.false_eq_true, if_false, Option.some.injEq] at h
    exact Or.inr ⟨rfl, h.symm⟩
  | true =>
    cases v with
    | int64 x =>
      simp only [if_true, assertInt64, Option.map, Option.some.injEq] at h
      exact Or.inl ⟨rfl, x, rfl, h.symm⟩
    | nil => simp [assertInt64] at h
    | bool _ => simp [assertInt64] at h
    | int _ => simp [assertInt64] at h
    | str _ => simp [assertInt64] at h

/-- Every request `Update` builds is the identifier plus, for each of the three
mutable attributes, the desired value exactly when it differs from the stored
one. -/
theorem updateParams_fields (d : ResourceData) (p : UpdateApiCacheInput)
    (h : updateParams d = some p) :
    p.ApiId = some d.id ∧
      p.ApiCachingBehavior.map GoValue.str =
        (if d.HasChange "api_caching_behavior" = true then
          some (d.Get "api_caching_behavior") else none) ∧
      p.Ttl.map GoValue.int64 =
        (if d.HasChange "ttl" = true then some (d.Get "ttl") else none) ∧
      p.Typ.map GoValue.str =
        (if d.HasChange "type" = true then some (d.Get "type") else none) := by
  unfold updateParams at h
  simp only [ResourceData.Id] at h
  split at h
  · cases h
  · rename_i q1 hq1
    split at h
    · cases h
    · rename_i q2 hq2
      rcases string_step _ _ _ _ _ hq1 with ⟨c1, x1, v1, e1⟩ | ⟨c1, e1⟩ <;>
      rcases int64_step _ _ _ _ _ hq2 with ⟨c2, x2, v2, e2⟩ | ⟨c2, e2⟩ <;>
      rcases string_step _ _ _ _ _ h with ⟨c3, x3, v3, e3⟩ | ⟨c3, e3⟩ <;>
      subst e3 <;> subst e2 <;> subst e1 <;>
      simp [*]

/-- With `ttl` unchanged and the other two mutable attributes held as strings,
`Update` builds its request. -/
theorem updateParams_built (d : ResourceData) (b t : String)
    (hc : d.HasChange "ttl" = false) (hb : d.Get "api_caching_behavior" = .str b)
    (ht : d.Get "type" = .str t) : ∃ p, updateParams d = some p := by
  unfold updateParams
  simp only [hc, hb, ht, assertString, Option.map, Bool.false_eq_true, if_false]
  by_cases c1 : d.HasChange "api_caching_behavior" = true <;>
  by_cases c3 : d.HasChange "type" = true <;>
  simp [c1, c3]

/-- With only `type` changed, `Update` issues the update call carrying the
identifier and the desired `type`, then the read. -/
theorem update_type_change_example :
    (resourceAwsAppsyncApiCacheUpdate typeChangeData (okClient largeCache)).calls =
        [.UpdateApiCache { ApiId := some "abc", ApiCachingBehavior := none, Ttl := none,
                           Typ := some "XLARGE" },
         .GetApiCache { ApiId := some "abc" }] ∧
      (resourceAwsAppsyncApiCacheUpdate typeChangeData (okClient largeCache)).outcome
        = .returned none := by
  decide

/-! ## The claims -/

/-- C5. For every integer `v`, the validation predicate the schema attaches to
`ttl` accepts `v` exactly when `1 ≤ v ≤ 3600`, both bounds included; so `0` is
rejected and `3600` accepted. -/
theorem ttl_validation_accepts_iff (lower : Char → Char) (v : Int) :
    (validates lower "ttl" (.int v) = true ↔ 1 ≤ v ∧ v ≤ 3600) ∧
      validates lower "ttl" (.int 0) = false ∧ validates lower "ttl" (.int 3600) = true := by
  have hl : resourceAwsAppsyncApiCache.lookup "ttl" =
      some { Typ := .TypeInt, Required := true, Optional := false,
             ValidateFunc := some (.intBetween 1 3600) } := by decide
  have key : ∀ w : Int, validates lower "ttl" (.int w) = true ↔ 1 ≤ w ∧ w ≤ 3600 := by
    intro w
    simp only [validates, hl, SchemaValidateFunc.run, IntBetween, assertInt]
    by_cases h : w < 1 ∨ w > 3600
    · have : (decide (w < 1) || decide (w > 3600)) = true := by simpa using h
      simp only [this, if_true, List.isEmpty_cons]
      constructor
      · intro hf
        cases hf
      · intro hb
        rcases h with h | h <;> omega
    · have : (decide (w < 1) || decide (w > 3600)) = false := by
        rcases Bool.eq_false_or_eq_true (decide (w < 1) || decide (w > 3600)) with ht | hf
        · exact absurd (by simpa using ht) h
        · exact hf
      simp only [this, Bool.false_eq_true, if_false, List.isEmpty_nil, true_iff]
      push_neg at h
      exact ⟨h.1, h.2⟩
  refine ⟨key v, ?_, (key 3600).2 (by omega)⟩
  rcases Bool.eq_false_or_eq_true (validates lower "ttl" (.int 0)) with ht | hf
  · have := (key 0).1 ht
    omega
  · exact hf

/-- C6. For every string `s`, the validation predicate of `api_caching_behavior`
accepts `s` exactly when `s` equals, ignoring letter case, one of the two
caching-behaviour tokens, and the validation predicate of `type` accepts `s`
exactly when `s` equals, ignoring letter case, one of the eight cache-size
tokens of the schema. -/
theorem string_validation_accepts_iff (lower : Char → Char) (s : String) :
    (validates lower "api_caching_behavior" (.str s) = true ↔
        ∃ t ∈ cachingBehaviorTokens, equalsIgnoringCase lower s t) ∧
      (validates lower "type" (.str s) = true ↔
        ∃ t ∈ cacheSizeTokens, equalsIgnoringCase lower s t) := by
  have hb : resourceAwsAppsyncApiCache.lookup "api_caching_behavior" =
      some { Typ := .TypeString, Required := true, Optional := false,
             ValidateFunc := some (.stringInSlice cachingBehaviorTokens true) } := by decide
  have ht : resourceAwsAppsyncApiCache.lookup "type" =
      some { Typ := .TypeString, Required := true, Optional := false,
             ValidateFunc := some (.stringInSlice cacheSizeTokens true) } := by decide
  constructor
  · simp only [validates, hb, SchemaValidateFunc.run]
    exact StringInSlice_accepts_iff lower cachingBehaviorTokens s "api_caching_behavior"
  · simp only [validates, ht, SchemaValidateFunc.run]
    exact StringInSlice_accepts_iff lower cacheSizeTokens s "type"

/-- C3. For every identifier, `resourceAwsAppsyncApiCacheDelete` issues the one
delete call, always returns, and returns no error exactly when the call
succeeds or fails with an error of the client carrying the not-found code; it
returns an error exactly when the call fails with any other error, and that
error is the one the call gave. Consequently a second Delete, which the remote side answers with success
or with not-found because the identifier is already deleted, returns no
error. -/
theorem delete_returns_error_iff (d : ResourceData) (conn : AppSync) :
    (resourceAwsAppsyncApiCacheDelete d conn).calls = [.DeleteApiCache { ApiId := some d.id }] ∧
    (resourceAwsAppsyncApiCacheDelete d conn).d = d ∧
    (∃ r, (resourceAwsAppsyncApiCacheDelete d conn).outcome = .returned r) ∧
    ((resourceAwsAppsyncApiCacheDelete d conn).outcome = .returned none ↔
      (conn.DeleteApiCache { ApiId := some d.id } = none ∨
        ∃ m, conn.DeleteApiCache { ApiId := some d.id } =
          some (.aws ErrCodeNotFoundException m))) ∧
    (∀ e, (resourceAwsAppsyncApiCacheDelete d conn).outcome = .returned (some e) ↔
      (conn.DeleteApiCache { ApiId := some d.id } = some e ∧
        ¬ ∃ m, e = .aws ErrCodeNotFoundException m)) ∧
    (∀ second : AppSync,
      (second.DeleteApiCache { ApiId := some d.id } = none ∨
        ∃ m, second.DeleteApiCache { ApiId := some d.id } =
          some (.aws ErrCodeNotFoundException m)) →
      (resourceAwsAppsyncApiCacheDelete (resourceAwsAppsyncApiCacheDelete d conn).d
        second).outcome = .returned none) := by
  have cls : ∀ e : GoError, isAWSErr e ErrCodeNotFoundException "" = true ↔
      ∃ m, e = .aws ErrCodeNotFoundException m := by
    intro e
    cases e with
    | aws c m =>
      simp only [isAWSErr, Contains_empty, Bool.and_true, beq_iff_eq]
      constructor
      · intro h
        exact ⟨m, by rw [h]⟩
      · rintro ⟨m', h⟩
        injection h
    | errorf f a c =>
      simp only [isAWSErr]
      constructor
      · intro h
        cases h
      · rintro ⟨m, h⟩
        cases h
    | other t =>
      simp only [isAWSErr]
      constructor
      · intro h
        cases h
      · rintro ⟨m, h⟩
        cases h
  have main : ∀ (x : ResourceData) (c : AppSync),
      (resourceAwsAppsyncApiCacheDelete x c).calls = [.DeleteApiCache { ApiId := some x.id }] ∧
      (resourceAwsAppsyncApiCacheDelete x c).d = x ∧
      (∃ r, (resourceAwsAppsyncApiCacheDelete x c).outcome = .returned r) ∧
      ((resourceAwsAppsyncApiCacheDelete x c).outcome = .returned none ↔
        (c.DeleteApiCache { ApiId := some x.id } = none ∨
          ∃ m, c.DeleteApiCache { ApiId := some x.id } =
            some (.aws ErrCodeNotFoundException m))) ∧
      (∀ e, (resourceAwsAppsyncApiCacheDelete x c).outcome = .returned (some e) ↔
        (c.DeleteApiCache { ApiId := some x.id } = some e ∧
          ¬ ∃ m, e = .aws ErrCodeNotFoundException m)) := by
    intro x c
    have eqn : resourceAwsAppsyncApiCacheDelete x c =
        ⟨x, [.DeleteApiCache { ApiId := some x.id }],
          .returned (match c.DeleteApiCache { ApiId := some x.id } with
            | none => none
            | some err => if isAWSErr err ErrCodeNotFoundException "" = true then none
                else some err)⟩ := by
      unfold resourceAwsAppsyncApiCacheDelete
      simp only [ResourceData.Id]
      cases c.DeleteApiCache { ApiId := some x.id } with
      | none => rfl
      | some err =>
        by_cases hn : isAWSErr err ErrCodeNotFoundException "" = true
        · simp only [if_pos hn]
        · simp only [if_neg hn]
    rw [eqn]
    refine ⟨rfl, rfl, ⟨_, rfl⟩, ?_, ?_⟩
    · cases hr : c.DeleteApiCache { ApiId := some x.id } with
      | none => simp
      | some err =>
        by_cases hn : isAWSErr err ErrCodeNotFoundException "" = true
        · simp only [if_pos hn, true_iff]
          obtain ⟨m, hm⟩ := (cls err).1 hn
          exact Or.inr ⟨m, by rw [hm]⟩
        · simp only [if_neg hn]
          constructor
          · intro h
            injection h with h
            cases h
          · rintro (h | ⟨m, h⟩)
            · cases h
            · injection h with h
              exact absurd ((cls err).2 ⟨m, h⟩) hn
    · intro e
      cases hr : c.DeleteApiCache { ApiId := some x.id } with
      | none =>
        constructor
        · intro h
          injection h with h
          cases h
        · rintro ⟨h, _⟩
          cases h
      | some err =>
        by_cases hn : isAWSErr err ErrCodeNotFoundException "" = true
        · simp only [if_pos hn]
          constructor
          · intro h
            injection h with h
            cases h
          · rintro ⟨h1, h2⟩
            injection h1 with h1
            exact absurd ((cls e).1 (h1 ▸ hn)) h2
        · simp only [if_neg hn]
          constructor
          · intro h
            injection h with h
            injection h with h
            subst h
            exact ⟨rfl, fun hx => hn ((cls err).2 hx)⟩
          · rintro ⟨h1, _⟩
            injection h1 with h1
            rw [h1]
  obtain ⟨h1, h2, h0, h3, h4⟩ := main d conn
  refine ⟨h1, h2, h0, h3, h4, ?_⟩
  intro second hs
  rw [h2]
  exact (main d second).2.2.2.1.2 hs

/-- C10. Whenever the desired `ttl` passes the schema's validation (so it is
held as the schema's integer type), `resourceAwsAppsyncApiCacheCreate` never
reaches the remote call: the assertion of `ttl` to `int64` fails, the procedure
aborts with no call issued and the instance is left as it was. This is what the
code does where the claim says the assertion succeeds and one create call is
issued. -/
theorem create_aborts_on_schema_ttl (lower : Char → Char) (d : ResourceData) (conn : AppSync)
    (h : validates lower "ttl" (d.Get "ttl") = true) :
    assertInt64 (d.Get "ttl") = none ∧
      resourceAwsAppsyncApiCacheCreate d conn = ⟨d, [], .aborted⟩ := by
  obtain ⟨n, hn⟩ := ttl_valid_is_int lower _ h
  refine ⟨by rw [hn]; rfl, ?_⟩
  unfold resourceAwsAppsyncApiCacheCreate
  rw [createParams_none_of_int d n hn]

theorem create_aborts_on_schema_ttl_witness :
    validates Char.toLower "api_caching_behavior"
        (scenarioData.Get "api_caching_behavior") = true ∧
      validates Char.toLower "type" (scenarioData.Get "type") = true ∧
      validates Char.toLower "ttl" (scenarioData.Get "ttl") = true ∧
      scenarioData.Get "ttl" = .int 3600 ∧
      assertInt64 (scenarioData.Get "ttl") = none ∧
      resourceAwsAppsyncApiCacheCreate scenarioData (okClient largeCache)
        = ⟨scenarioData, [], .aborted⟩ :=
  ⟨by decide, by decide, by decide, by decide,
    create_aborts_on_schema_ttl Char.toLower scenarioData (okClient largeCache) (by decide)⟩

/-- C2. When `GetApiCache` fails with an error of the client carrying the
not-found code, `resourceAwsAppsyncApiCacheRead` returns an error and leaves the
container, its identifier included, as it was: the not-found error is returned
like every other remote failure, where the claim says it is swallowed and the
identifier cleared. -/
theorem read_returns_not_found_error (d : ResourceData) (resp : Option GetApiCacheOutput)
    (m : String) :
    resourceAwsAppsyncApiCacheRead d (getAnswers (resp, some (.aws ErrCodeNotFoundException m)))
      = ⟨d, [.GetApiCache { ApiId := some d.id }], .returned (some
          (.errorf "error getting Appsync API Cache for API ID %q: %s" [d.id]
            (.aws ErrCodeNotFoundException m)))⟩ :=
  read_on_error d _ resp _ rfl

/-- C4. When the desired `ttl` differs from the stored one and passes the
schema's validation (so it is held as the schema's integer type),
`resourceAwsAppsyncApiCacheUpdate` builds no request: the assertion of `ttl` to
`int64` fails and the procedure aborts with no call issued, where the claim
says the request carries the desired `ttl`. -/
theorem update_aborts_on_changed_schema_ttl (lower : Char → Char) (d : ResourceData)
    (conn : AppSync) (hc : d.HasChange "ttl" = true)
    (hv : validates lower "ttl" (d.Get "ttl") = true) :
    updateParams d = none ∧ resourceAwsAppsyncApiCacheUpdate d conn = ⟨d, [], .aborted⟩ := by
  obtain ⟨n, hn⟩ := ttl_valid_is_int lower _ hv
  have hu := updateParams_none_of_int d n hc hn
  refine ⟨hu, ?_⟩
  unfold resourceAwsAppsyncApiCacheUpdate
  rw [hu]

theorem update_aborts_on_changed_schema_ttl_witness :
    ttlChangeData.GetChange "ttl" = (.int 60, .int 120) ∧
      updateParams ttlChangeData = none ∧
      resourceAwsAppsyncApiCacheUpdate ttlChangeData (okClient largeCache)
        = ⟨ttlChangeData, [], .aborted⟩ :=
  ⟨by decide,
    update_aborts_on_changed_schema_ttl Char.toLower ttlChangeData (okClient largeCache)
      (by decide) (by decide)⟩

/-- C1. On every container whose `ttl` passes the schema's validation,
`resourceAwsAppsyncApiCacheCreate` builds no create request and issues none: the
assertion at line 76 aborts inside the request literal. So no request carrying
`api_id`, `api_caching_behavior`, `ttl` and `type` exists, where the claim says
the request built carries all four. -/
theorem create_builds_no_request_on_schema_valid (lower : Char → Char) (d : ResourceData)
    (conn : AppSync) (h : validates lower "ttl" (d.Get "ttl") = true) :
    createParams d = none ∧
      ∀ p, RemoteCall.CreateApiCache p ∉ (resourceAwsAppsyncApiCacheCreate d conn).calls := by
  obtain ⟨n, hn⟩ := ttl_valid_is_int lower _ h
  refine ⟨createParams_none_of_int d n hn, ?_⟩
  intro p hp
  rw [create_run_of_valid_ttl lower d conn h] at hp
  cases hp

theorem create_builds_no_request_on_schema_valid_witness :
    validates Char.toLower "api_caching_behavior"
        (scenarioData.Get "api_caching_behavior") = true ∧
      validates Char.toLower "type" (scenarioData.Get "type") = true ∧
      validates Char.toLower "ttl" (scenarioData.Get "ttl") = true ∧
      scenarioData.Get "api_id" = .str "abc" ∧
      createParams scenarioData = none ∧
      ∀ p, RemoteCall.CreateApiCache p ∉
        (resourceAwsAppsyncApiCacheCreate scenarioData (okClient largeCache)).calls :=
  ⟨by decide, by decide, by decide, by decide,
    create_builds_no_request_on_schema_valid Char.toLower scenarioData (okClient largeCache)
      (by decide)⟩

/-- C9. On every container whose `ttl` passes the schema's validation,
`resourceAwsAppsyncApiCacheCreate` issues no create request carrying either
encryption flag, whatever the flags are set to: the assertion at line 76 aborts
before lines 78-83 read them. A flag explicitly set is therefore not carried,
where the claim says it is. -/
theorem create_carries_no_flag_on_schema_valid (lower : Char → Char) (d : ResourceData)
    (conn : AppSync) (h : validates lower "ttl" (d.Get "ttl") = true) :
    ¬ ∃ p, RemoteCall.CreateApiCache p ∈ (resourceAwsAppsyncApiCacheCreate d conn).calls ∧
      (p.AtRestEncryptionEnabled ≠ none ∨ p.TransitEncryptionEnabled ≠ none) := by
  rintro ⟨p, hp, _⟩
  rw [create_run_of_valid_ttl lower d conn h] at hp
  cases hp

theorem create_carries_no_flag_on_schema_valid_witness :
    flagsData.planned.lookup "at_rest_encryption_enabled" = some (.bool true) ∧
      flagsData.planned.lookup "transit_encryption_enabled" = some (.bool false) ∧
      flagsData.GetOk "at_rest_encryption_enabled" = (.bool true, true) ∧
      ¬ ∃ p, RemoteCall.CreateApiCache p ∈
          (resourceAwsAppsyncApiCacheCreate flagsData (okClient largeCache)).calls ∧
        (p.AtRestEncryptionEnabled ≠ none ∨ p.TransitEncryptionEnabled ≠ none) :=
  ⟨by decide, by decide, by decide,
    create_carries_no_flag_on_schema_valid Char.toLower flagsData (okClient largeCache)
      (by decide)⟩

end AppsyncApiCache
